import Mathlib

/-!
Verification development for the pcgtools PCC/LST loader (`src/main.rs`).

The Rust source is shallowly embedded: `HashMap` is modelled by an
association list with key-based get/remove/insert, file I/O by an explicit
map from path to file lines, `io::Result` together with process panics by
an explicit `Status` outcome, and the mutable `Pcc` state (`&mut self`) by
explicit state passing — every stateful function returns the state as it is
at the moment the function returns (also on the error path, matching Rust's
in-place mutation).  Rust string operations are modelled on the character
list of the string; all characters that the parser inspects (`@ * / \ ! # :
| <tab>`) are one-byte ASCII, so byte slicing in the source coincides with
character operations here.
-/

set_option autoImplicit false

namespace Pcgtools

/-- Association-list model of `std::collections::HashMap` with `String`
keys: lookup finds the binding of the key, insert replaces any existing
binding, remove deletes it. -/
abbrev AList (α : Type) := List (String × α)

/-- Model of `HashMap::get`. -/
def aget {α : Type} : AList α → String → Option α
  | [], _ => none
  | (k', v) :: rest, k => if k' = k then some v else aget rest k

/-- Model of `HashMap::remove` (key deletion; lookup-relevant content only). -/
def aerase {α : Type} : AList α → String → AList α
  | [], _ => []
  | (k', v) :: rest, k =>
    if k' = k then aerase rest k else (k', v) :: aerase rest k

/-- Model of `HashMap::insert`: the new binding replaces any old one. -/
def ains {α : Type} (m : AList α) (k : String) (v : α) : AList α :=
  (k, v) :: aerase m k

/-- Model of `str::split` for a one-character pattern: splits at every
occurrence of `sep`, keeping empty pieces (so the result is never empty). -/
def strSplit (s : String) (sep : Char) : List String :=
  (s.data.foldr
    (fun c acc =>
      match acc with
      | [] => [[c]]
      | g :: gs => if c = sep then [] :: g :: gs else (c :: g) :: gs)
    [[]]).map String.mk

/-- Joins pieces with `sep` between them; inverse of `strSplit` on the
tail pieces, used to model `str::split_once`. -/
def joinSep (sep : Char) : List String → String
  | [] => ""
  | [s] => s
  | s :: rest => s ++ String.singleton sep ++ joinSep sep rest

/-- Model of `str::split_once` for a one-character pattern: `none` when the
separator does not occur, otherwise the text before the first occurrence
and everything after it. -/
def splitOnce (s : String) (sep : Char) : Option (String × String) :=
  match strSplit s sep with
  | [] => none
  | [_] => none
  | p :: rest => some (p, joinSep sep rest)

/-- First character of a string, model of `str::chars().next()`. -/
def strHead (s : String) : Option Char :=
  s.data.head?

/-- Model of the byte slice `&s[n..]` where the first `n` characters are
known to be ASCII (the source only slices after `@` or `!`). -/
def strDrop (s : String) (n : Nat) : String :=
  String.mk (s.data.drop n)

/-- Model of the byte slice `&s[0..len-n]` where the last `n` characters
are known to be ASCII (the source only strips the `.MOD` suffix). -/
def strDropRight (s : String) (n : Nat) : String :=
  String.mk (s.data.take (s.data.length - n))

/-- Model of `str::ends_with` for a string pattern. -/
def strEndsWith (s suffix : String) : Bool :=
  suffix.data.isSuffixOf s.data

/-- Model of `str::trim().is_empty()`: every character is whitespace. -/
def strTrimIsEmpty (s : String) : Bool :=
  s.data.all Char.isWhitespace

/-- Model of `str::contains("\\")` (one-character pattern): the backslash
character occurs in the string. -/
def strContainsBackslash (s : String) : Bool :=
  decide ('\\' ∈ s.data)

/-- Model of `str::replace("\\", "/")` (one-character pattern and
replacement). -/
def replaceBackslashes (s : String) : String :=
  String.mk (s.data.map (fun c => if c = '\\' then '/' else c))

/-- Rust `enum PccTag`. -/
inductive PccTag : Type
  | Bool
  | Date
  | LstFile
  | Number
  | Text
  | PccFile
  deriving DecidableEq, Repr

/-- Rust `struct PccElem` (`_ident` is named `ident` here). -/
structure PccElem : Type where
  ident : String
  attribs : List (String × String)
  deriving DecidableEq, Repr

/-- Rust `PccElem::new`. -/
def PccElem.new (ident : String) : PccElem :=
  { ident := ident, attribs := [] }

/-- Rust `struct PccList` (`_ident` is named `ident` here). -/
structure PccList : Type where
  ident : String
  props : AList PccElem
  deriving DecidableEq, Repr

/-- Rust `PccList::new`. -/
def PccList.new (ident : String) : PccList :=
  { ident := ident, props := [] }

/-- Rust `enum PccDatum`. -/
inductive PccDatum : Type
  | Text (s : String)
  | List (l : PccList)
  deriving DecidableEq, Repr

/-- Rust `struct PccConfig`. -/
structure PccConfig : Type where
  datadir : String
  deriving DecidableEq, Repr

/-- Rust `struct Pcc`. -/
structure Pcc : Type where
  config : PccConfig
  dict : AList PccDatum
  pccSchema : AList PccTag
  aliases : AList String
  deriving DecidableEq, Repr

/-- Rust `new_pcc_schema()`: the fixed directive-name → kind table. -/
def newPccSchema : AList PccTag :=
  [("PRECAMPAIGN", .Text),
   ("BOOKTYPE", .Text),
   ("CAMPAIGN", .Text),
   ("COMPANIONLIST", .Text),
   ("COPYRIGHT", .Text),
   ("COVER", .Text),
   ("DESC", .Text),
   ("DYNAMIC", .Text),
   ("FORWARDREF", .Text),
   ("GAMEMODE", .Text),
   ("GENRE", .Text),
   ("HELP", .Text),
   ("HIDETYPE", .Text),
   ("INFOTEXT", .Bool),
   ("ISOGL", .Bool),
   ("ISLICENSED", .Bool),
   ("KEY", .Text),
   ("LOGO", .Text),
   ("PCC", .PccFile),
   ("PUBNAMELONG", .Text),
   ("PUBNAMESHORT", .Text),
   ("PUBNAMEWEB", .Text),
   ("RANK", .Number),
   ("SETTING", .Text),
   ("SHOWINMENU", .Text),
   ("SOURCEDATE", .Date),
   ("SOURCELONG", .Text),
   ("SOURCESHORT", .Text),
   ("SOURCEWEB", .Text),
   ("STATUS", .Text),
   ("TYPE", .Text),
   ("URL", .Text),
   ("ABILITY", .LstFile),
   ("ABILITYCATEGORY", .LstFile),
   ("ALIGNMENT", .LstFile),
   ("ARMORPROF", .LstFile),
   ("BIOSET", .LstFile),
   ("CLASS", .LstFile),
   ("COMPANIONMOD", .LstFile),
   ("DATATABLE", .LstFile),
   ("DATACONTROL", .LstFile),
   ("DEITY", .LstFile),
   ("DOMAIN", .LstFile),
   ("EQUIPMENT", .LstFile),
   ("EQUIPMOD", .LstFile),
   ("GLOBALMODIFIER", .LstFile),
   ("KIT", .LstFile),
   ("LANGUAGE", .LstFile),
   ("RACE", .LstFile),
   ("SAVE", .LstFile),
   ("SHIELDPROF", .LstFile),
   ("SIZE", .LstFile),
   ("SKILL", .LstFile),
   ("SPELL", .LstFile),
   ("STAT", .LstFile),
   ("TEMPLATE", .LstFile),
   ("VARIABLE", .LstFile),
   ("WEAPONPROF", .LstFile)]

/-- Rust `Pcc::new`. -/
def Pcc.new (config : PccConfig) : Pcc :=
  { config := config, dict := [], pccSchema := newPccSchema, aliases := [] }

/-- Model of the filesystem seen by the loader: a path is mapped to the
list of its text lines (already split, as `BufReader::lines` yields them),
or to `none` when `File::open` would fail. -/
def FS : Type := String → Option (List String)

/-- Model of the `io::Error` values the source constructs:
`other` is `Error::new(ErrorKind::Other, msg)`, `notFound` is the error of
a failed `File::open` carrying the path that was opened. -/
inductive RErr : Type
  | other (msg : String)
  | notFound (path : String)
  deriving DecidableEq, Repr

/-- Outcome of a stateful call: normal `Ok(())` return, an `Err` return,
or a process panic (`panic!` / `expect` / `unwrap`). -/
inductive Status : Type
  | ok
  | err (e : RErr)
  | panicked (msg : String)
  deriving DecidableEq, Repr

/-- Rust `dir_from_path`: model of `Path::new(p).parent()` for slash-separated
paths without a trailing slash (`"a/b" ↦ some "a"`, `"a" ↦ some ""`,
`"/a" ↦ some "/"`, `"" ↦ none`, `"/" ↦ none`). -/
def dirFromPath (fullPath : String) : Option String :=
  if fullPath = "" ∨ fullPath = "/" then none
  else
    let init := (strSplit fullPath '/').dropLast
    if init.all (fun t => t = "") ∧ strHead fullPath = some '/' then some "/"
    else some (joinSep '/' init)

/-- Path building of `Pcc::read` (lines 426–436): prepend the data
directory when the include is relative, then normalize backslashes. -/
def resolvePccPath (datadir pccpath : String) (isRelative : Bool) : String :=
  let fpath := (if isRelative then datadir else "") ++ pccpath
  if strContainsBackslash fpath then replaceBackslashes fpath else fpath

/-- The `PccTag::PccFile` branch of `read_pcc_line` (lines 378–390): a
leading `@` marks the nested path as relative and is stripped; the result
is the `(is_rel, fpath)` pair passed to `Pcc::read`. -/
def pccIncludeArg (rhs : String) : Bool × String :=
  if strHead rhs = some '@' then (true, strDrop rhs 1) else (false, rhs)

/-- Path-prefix parsing of `Pcc::read_lst` (lines 276–299): `none` models
the `expect("Empty LST path")` panic on an empty token; `/` keeps the token
verbatim, `@`/`*` append the remainder to the data directory, anything else
appends the token to the current file's directory. -/
def resolveLstPath (datadir basedir lstpath : String) : Option String :=
  match strHead lstpath with
  | none => none
  | some prefixCh =>
    if prefixCh = '/' then some lstpath
    else if prefixCh = '@' ∨ prefixCh = '*' then
      some (datadir ++ strDrop lstpath 1)
    else some (basedir ++ "/" ++ lstpath)

/-- Attribute gathering of `read_lst_line` (lines 213–227): each token is
split once on `:`; a token without `:` becomes `(token, "")` unless it
trims to empty, in which case it is dropped. -/
def parseAttribs (tokens : List String) : List (String × String) :=
  tokens.foldl
    (fun attribs token =>
      match splitOnce token ':' with
      | none =>
        if strTrimIsEmpty token then attribs else attribs ++ [(token, "")]
      | some (akey, aval) => attribs ++ [(akey, aval)])
    []

/-- Pre-processing loop of `read_lst_line` (lines 229–244): in token
order, `ABB` inserts `value ↦ current identifier` into the alias table and
`KEY` overwrites the working identifier with its value. -/
def preprocess (aliases : AList String) (ident : String)
    (attribs : List (String × String)) : AList String × String :=
  attribs.foldl
    (fun st kv =>
      if kv.1 = "ABB" then (ains st.1 kv.2 st.2, st.2)
      else if kv.1 = "KEY" then (st.1, kv.2)
      else st)
    (aliases, ident)

/-- Record merge of `read_lst_line` (lines 249–263): remove the element
for `ident` (or create a fresh one), append the new attributes to its
attribute list, and insert it back. -/
def mergeElem (props : AList PccElem) (ident : String)
    (attribs : List (String × String)) : AList PccElem :=
  let obj :=
    match aget props ident with
    | some o => o
    | none => PccElem.new ident
  ains (aerase props ident) ident { obj with attribs := obj.attribs ++ attribs }

/-- Rust `Pcc::read_lst_line` (lines 185–266).  The `&mut self` / `&mut datum`
mutations are returned as the new `Pcc` and `PccDatum`; the
`as_mut_list().unwrap()` on a non-list datum is a panic (it fires after the
alias-table mutations of the pre-processing loop, as in the source). -/
def readLstLine (pcc : Pcc) (datum : PccDatum) (line : String) :
    (Pcc × PccDatum) × Status :=
  let tokens := strSplit line '\t'
  let rawIdent := tokens.headD ""
  let rest := tokens.tail
  let isMod := strEndsWith rawIdent ".MOD"
  let ident0 := if isMod then strDropRight rawIdent 4 else rawIdent
  let ident1 :=
    match aget pcc.aliases ident0 with
    | none => ident0
    | some canon => canon
  let attribs := parseAttribs rest
  let ai := preprocess pcc.aliases ident1 attribs
  let pcc2 := { pcc with aliases := ai.1 }
  match datum with
  | .Text s => ((pcc2, .Text s), .panicked "as_mut_list returned None")
  | .List lst =>
    ((pcc2, .List { lst with props := mergeElem lst.props ai.2 attribs }), .ok)

/-- Line loop of `Pcc::read_lst` (lines 328–339): empty lines and lines
starting with `#` are skipped; the first non-`ok` outcome stops the loop. -/
def readLstLines : Pcc → PccDatum → List String → (Pcc × PccDatum) × Status
  | pcc, datum, [] => ((pcc, datum), .ok)
  | pcc, datum, line :: rest =>
    if strHead line = none ∨ strHead line = some '#' then
      readLstLines pcc datum rest
    else
      match readLstLine pcc datum line with
      | ((pcc', datum'), .ok) => readLstLines pcc' datum' rest
      | r => r

/-- Rust `Pcc::read_lst` (lines 269–345): resolve the path (panicking on an
empty token), remove the existing datum for the tag or create a fresh
list, panic if it is not a list, open the file (an `Err` return when the
filesystem has no entry — the removed datum is not reinserted), run the
line loop, and reinsert the updated datum only on success. -/
def readLst (pcc : Pcc) (fs : FS) (pccTag basedir lstpath _lstopts : String) :
    Pcc × Status :=
  match resolveLstPath pcc.config.datadir basedir lstpath with
  | none => (pcc, .panicked "Empty LST path")
  | some fpath =>
    let pd : Pcc × PccDatum :=
      match aget pcc.dict pccTag with
      | none => (pcc, .List (PccList.new pccTag))
      | some d => ({ pcc with dict := aerase pcc.dict pccTag }, d)
    match pd.2 with
    | .Text _ => (pd.1, .panicked "key is not a list")
    | .List lst =>
      match fs fpath with
      | none => (pd.1, .err (.notFound fpath))
      | some lines =>
        match readLstLines pd.1 (.List lst) lines with
        | ((pcc2, datum2), .ok) =>
          ({ pcc2 with dict := ains pcc2.dict pccTag datum2 }, .ok)
        | ((pcc2, _), .err e) => (pcc2, .err e)
        | ((pcc2, _), .panicked m) => (pcc2, .panicked m)

/-- Rust `Pcc::read_pcc_line` (lines 347–422), parametrized by the function
used for the recursive `Pcc::read` call so that the mutual recursion can
be tied by fuel in `read` below.  Splits the line on the first `:`, strips
a leading `!` (recorded but unused in the source), looks the directive up
in the schema, and dispatches on its kind. -/
def readPccLineF (readF : Pcc → FS → String → Bool → Pcc × Status)
    (pcc : Pcc) (fs : FS) (basedir line : String) : Pcc × Status :=
  match splitOnce line ':' with
  | none => (pcc, .err (.other "PCC invalid line:colon"))
  | some (lhs0, rhs) =>
    let lhs := if strHead lhs0 = some '!' then strDrop lhs0 1 else lhs0
    match aget pcc.pccSchema lhs with
    | none => (pcc, .err (.other ("PCC invalid key " ++ lhs)))
    | some tagtype =>
      match tagtype with
      | .PccFile => readF pcc fs (pccIncludeArg rhs).2 (pccIncludeArg rhs).1
      | .LstFile =>
        match splitOnce rhs '|' with
        | none => readLst pcc fs lhs basedir rhs ""
        | some (lstpath, lstopts) => readLst pcc fs lhs basedir lstpath lstopts
      | .Bool | .Date | .Number | .Text =>
        match aget pcc.dict lhs with
        | none =>
          ({ pcc with dict := ains pcc.dict lhs (.Text rhs) }, .ok)
        | some (.Text v) =>
          ({ pcc with dict := ains pcc.dict lhs (.Text (v ++ "\n" ++ rhs)) }, .ok)
        | some (.List _) => (pcc, .ok)

/-- Line loop of `Pcc::read` (lines 445–455), parametrized like
`readPccLineF`: empty lines and `#` comments are skipped, the first
non-`ok` outcome of a line stops the loop and is returned as is. -/
def readPccLinesF (readF : Pcc → FS → String → Bool → Pcc × Status)
    (pcc : Pcc) (fs : FS) (basedir : String) : List String → Pcc × Status
  | [] => (pcc, .ok)
  | line :: rest =>
    if strHead line = none ∨ strHead line = some '#' then
      readPccLinesF readF pcc fs basedir rest
    else
      match readPccLineF readF pcc fs basedir line with
      | (pcc', .ok) => readPccLinesF readF pcc' fs basedir rest
      | (pcc', .err e) => (pcc', .err e)
      | (pcc', .panicked m) => (pcc', .panicked m)

/-- Rust `Pcc::read` (lines 425–458).  The source recurses without bound
(descriptor cycles overflow the call stack); the `fuel` parameter models
the call stack, and exhausting it models that overflow.  The path is built
by `resolvePccPath`, the parent directory extracted (panicking on `none`,
as `unwrap` does), the file opened (`Err` when absent) and the line loop
run with one unit of fuel less for nested reads. -/
def read : Nat → Pcc → FS → String → Bool → Pcc × Status
  | 0, pcc, _, _, _ => (pcc, .panicked "stack overflow")
  | n + 1, pcc, fs, pccpath, isRelative =>
    let fpath := resolvePccPath pcc.config.datadir pccpath isRelative
    match dirFromPath fpath with
    | none => (pcc, .panicked "dir_from_path returned None")
    | some basedir =>
      match fs fpath with
      | none => (pcc, .err (.notFound fpath))
      | some lines => readPccLinesF (read n) pcc fs basedir lines

/-- Rust `Pcc::read_pcc_line` with the recursive call tied at a given fuel. -/
def readPccLine (fuel : Nat) : Pcc → FS → String → String → Pcc × Status :=
  fun pcc fs basedir line => readPccLineF (read fuel) pcc fs basedir line

/-- The `Pcc::read` line loop with the recursive call tied at a given fuel. -/
def readPccLines (fuel : Nat) :
    Pcc → FS → String → List String → Pcc × Status :=
  fun pcc fs basedir lines => readPccLinesF (read fuel) pcc fs basedir lines

/-! ## Helper lemmas about the association-list model -/

theorem aget_ains_self {α : Type} (m : AList α) (k : String) (v : α) :
    aget (ains m k v) k = some v := by
  simp [ains, aget]

theorem aget_aerase_ne {α : Type} (m : AList α) (k a : String) (h : k ≠ a) :
    aget (aerase m k) a = aget m a := by
  induction m with
  | nil => rfl
  | cons p rest ih =>
    obtain ⟨k', v⟩ := p
    by_cases hp : k' = k
    · subst hp
      simp [aerase, aget, h, ih]
    · by_cases ha : k' = a
      · simp [aerase, aget, hp, ha, Ne.symm h]
      · simp [aerase, aget, hp, ha, ih]

theorem aget_aerase_self {α : Type} (m : AList α) (k : String) :
    aget (aerase m k) k = none := by
  induction m with
  | nil => rfl
  | cons p rest ih =>
    obtain ⟨k', v⟩ := p
    by_cases hp : k' = k
    · simp [aerase, hp, ih]
    · simp [aerase, aget, hp, ih]

theorem aget_ains_ne {α : Type} (m : AList α) (k : String) (v : α) (a : String)
    (h : k ≠ a) : aget (ains m k v) a = aget m a := by
  simp [ains, aget, h, aget_aerase_ne m k a h]

/-! ## Helper lemmas about the attribute pre-processing loop -/

theorem preprocess_nil (als : AList String) (idn : String) :
    preprocess als idn [] = (als, idn) := rfl

theorem preprocess_cons (als : AList String) (idn : String)
    (kv : String × String) (rest : List (String × String)) :
    preprocess als idn (kv :: rest) =
      preprocess (if kv.1 = "ABB" then ains als kv.2 idn else als)
        (if kv.1 = "KEY" then kv.2 else idn) rest := by
  by_cases h1 : kv.1 = "ABB"
  · have h2 : kv.1 ≠ "KEY" := by simp [h1]
    simp [preprocess, h1, h2]
  · by_cases h2 : kv.1 = "KEY"
    · simp [preprocess, h1, h2]
    · simp [preprocess, h1, h2]

theorem preprocess_append (als : AList String) (idn : String)
    (xs ys : List (String × String)) :
    preprocess als idn (xs ++ ys) =
      preprocess (preprocess als idn xs).1 (preprocess als idn xs).2 ys := by
  simp [preprocess, List.foldl_append]

/-- The attribute values registered as aliases by the pre-processing loop:
the values of the `ABB`-keyed pairs, in order. -/
def abbVals (attribs : List (String × String)) : List String :=
  attribs.filterMap (fun kv => if kv.1 = "ABB" then some kv.2 else none)

theorem abbVals_cons (kv : String × String) (rest : List (String × String)) :
    abbVals (kv :: rest) =
      if kv.1 = "ABB" then kv.2 :: abbVals rest else abbVals rest := by
  by_cases h : kv.1 = "ABB" <;> simp [abbVals, List.filterMap_cons, h]

theorem aget_preprocess_of_not_abb (post : List (String × String)) :
    ∀ (als : AList String) (idn a : String), a ∉ abbVals post →
      aget (preprocess als idn post).1 a = aget als a := by
  induction post with
  | nil => intro als idn a _; rfl
  | cons kv rest ih =>
    intro als idn a ha
    rw [preprocess_cons]
    by_cases h1 : kv.1 = "ABB"
    · rw [abbVals_cons, if_pos h1, List.mem_cons] at ha
      push_neg at ha
      rw [if_pos h1, ih _ _ _ ha.2]
      exact aget_ains_ne als kv.2 idn a (fun hh => ha.1 hh.symm)
    · rw [abbVals_cons, if_neg h1] at ha
      rw [if_neg h1, ih _ _ _ ha]

theorem preprocess_snd (attribs : List (String × String)) :
    ∀ (als : AList String) (idn : String),
      (preprocess als idn attribs).2 =
        attribs.foldl (fun i kv => if kv.1 = "KEY" then kv.2 else i) idn := by
  induction attribs with
  | nil => intro als idn; rfl
  | cons kv rest ih =>
    intro als idn
    rw [preprocess_cons, List.foldl_cons, ih]

/-! ## Claim theorems -/

/-- C1: For every list-record merge under canonical identifier `ident`: if
`ident` already exists in the record set, the stored record keeps its
existing attribute sequence and the new attributes are appended to its end
(no attribute is replaced or deduplicated); if `ident` is absent, a new
record is created holding exactly the new attributes; and merging the same
attribute list twice under the same identifier yields each attribute pair
twice. -/
theorem C1_merge_append_semantics (props : AList PccElem) (ident : String)
    (attribs : List (String × String)) :
    (∀ o, aget props ident = some o →
      aget (mergeElem props ident attribs) ident =
        some { o with attribs := o.attribs ++ attribs })
    ∧ (aget props ident = none →
      aget (mergeElem props ident attribs) ident =
        some { ident := ident, attribs := attribs })
    ∧ (∀ o, aget props ident = some o →
      aget (mergeElem (mergeElem props ident attribs) ident attribs) ident =
        some { o with attribs := o.attribs ++ attribs ++ attribs }) := by
  refine ⟨?_, ?_, ?_⟩
  · intro o ho
    simp [mergeElem, ho, aget_ains_self]
  · intro ho
    simp [mergeElem, ho, aget_ains_self, PccElem.new]
  · intro o ho
    have h1 : aget (mergeElem props ident attribs) ident =
        some { o with attribs := o.attribs ++ attribs } := by
      simp [mergeElem, ho, aget_ains_self]
    simp [mergeElem, h1, ho, aget_ains_self, List.append_assoc]

/-- Witness for C1 at concrete inputs: a merge onto an existing record
appends, a merge onto an absent identifier creates the record, and a
repeated merge duplicates the attribute pair. -/
theorem C1_merge_append_semantics_witness :
    aget (mergeElem [("X", ⟨"X", [("A", "1")]⟩)] "X" [("B", "2")]) "X" =
      some ⟨"X", [("A", "1"), ("B", "2")]⟩
    ∧ aget (mergeElem [] "Y" [("B", "2")]) "Y" = some ⟨"Y", [("B", "2")]⟩
    ∧ aget (mergeElem (mergeElem [("X", ⟨"X", [("A", "1")]⟩)] "X" [("B", "2")])
        "X" [("B", "2")]) "X" =
      some ⟨"X", [("A", "1"), ("B", "2"), ("B", "2")]⟩ := by
  refine ⟨?_, ?_, ?_⟩
  · exact (C1_merge_append_semantics [("X", ⟨"X", [("A", "1")]⟩)] "X"
      [("B", "2")]).1 ⟨"X", [("A", "1")]⟩ rfl
  · exact (C1_merge_append_semantics [] "Y" [("B", "2")]).2.1 rfl
  · exact (C1_merge_append_semantics [("X", ⟨"X", [("A", "1")]⟩)] "X"
      [("B", "2")]).2.2 ⟨"X", [("A", "1")]⟩ rfl

/-- C2: In the pre-processing of a list line's attributes in token order,
an `ABB` attribute registers `alias value ↦ working identifier current at
that point` (so a later `KEY` on the same line leaves the alias pointing at
the pre-`KEY` identifier), a `KEY` attribute overwrites the working
identifier with its value (the final identifier is the result of folding
the `KEY` overrides in order), the record is stored under the final
identifier — the line `Temp<TAB>KEY:Real<TAB>COST:5` is stored under
`Real`, not `Temp` — and an `ABB` followed by a `KEY` registers the
pre-`KEY` alias while the identifier becomes the `KEY` value. -/
theorem C2_abb_key_token_order :
    (∀ (als : AList String) (idn : String) (pre post : List (String × String))
        (a : String), a ∉ abbVals post →
      aget (preprocess als idn (pre ++ ("ABB", a) :: post)).1 a =
        some (preprocess als idn pre).2)
    ∧ (∀ (als : AList String) (idn : String)
        (attribs : List (String × String)),
      (preprocess als idn attribs).2 =
        attribs.foldl (fun i kv => if kv.1 = "KEY" then kv.2 else i) idn)
    ∧ (readLstLine (Pcc.new ⟨"/data/"⟩) (.List (PccList.new "EQUIPMENT"))
        "Temp\tKEY:Real\tCOST:5").1.2 =
      .List ⟨"EQUIPMENT", [("Real", ⟨"Real", [("KEY", "Real"), ("COST", "5")]⟩)]⟩
    ∧ preprocess [] "Temp" [("ABB", "T"), ("KEY", "Real")] =
      ([("T", "Temp")], "Real") := by
  refine ⟨?_, ?_, rfl, rfl⟩
  · intro als idn pre post a ha
    rw [preprocess_append, preprocess_cons]
    have h1 : (("ABB", a) : String × String).1 = "ABB" := rfl
    have h2 : ("ABB" : String) ≠ "KEY" := by decide
    rw [if_pos h1,
      if_neg (show (("ABB", a) : String × String).1 ≠ "KEY" from h2)]
    rw [aget_preprocess_of_not_abb post _ _ a ha]
    exact aget_ains_self _ a _
  · intro als idn attribs
    exact preprocess_snd attribs als idn

/-- Witness for C2 at concrete inputs: on the attribute list
`COST:5  ABB:T  KEY:Real` the alias `T` points at the pre-`KEY` identifier
`Temp`, and the final identifier is the `KEY` value `Real`. -/
theorem C2_abb_key_token_order_witness :
    aget (preprocess [] "Temp"
        ([("COST", "5")] ++ ("ABB", "T") :: [("KEY", "Real")])).1 "T" =
      some (preprocess [] "Temp" [("COST", "5")]).2
    ∧ (preprocess [] "Temp" [("COST", "5"), ("KEY", "Real")]).2 =
      [("COST", "5"), ("KEY", "Real")].foldl
        (fun i kv => if kv.1 = "KEY" then kv.2 else i) "Temp" := by
  constructor
  · exact C2_abb_key_token_order.1 [] "Temp" [("COST", "5")] [("KEY", "Real")]
      "T" (by decide)
  · exact C2_abb_key_token_order.2.1 [] "Temp" [("COST", "5"), ("KEY", "Real")]

theorem strContainsBackslash_append (a b : String) :
    strContainsBackslash (a ++ b) =
      (strContainsBackslash a || strContainsBackslash b) := by
  simp [strContainsBackslash, String.data_append]

theorem strContainsBackslash_strDrop (s : String) (n : Nat)
    (h : strContainsBackslash s = false) :
    strContainsBackslash (strDrop s n) = false := by
  simp [strContainsBackslash, strDrop] at h ⊢
  exact fun hm => h (List.mem_of_mem_drop hm)

/-- Filesystem fixture holding exactly one (empty) descriptor file at the
data-directory-relative location `/data/sub/f.pcc`. -/
def fsNested : FS := fun p => if p = "/data/sub/f.pcc" then some [] else none

/-- Filesystem fixture with no files at all. -/
def fsNone : FS := fun _ => none

/-- Counterexample to C3: with data directory `/data/` and a filesystem
holding only `/data/sub/f.pcc`, the nested include `PCC:@sub/f.pcc`
succeeds, but `PCC:sub/f.pcc` — which C3 says resolves identically — tries
to open the verbatim path `sub/f.pcc` and fails, showing that a nested
include without `@` is not resolved relative to the data directory. -/
theorem C3_counterexample :
    (readPccLine 5 (Pcc.new ⟨"/data/"⟩) fsNested "/data" "PCC:@sub/f.pcc").2 =
      .ok
    ∧ (readPccLine 5 (Pcc.new ⟨"/data/"⟩) fsNested "/data" "PCC:sub/f.pcc").2 =
      .err (.notFound "sub/f.pcc") :=
  ⟨rfl, rfl⟩

/-- C3 as amended: a nested descriptor include whose path value starts
with `@` is resolved relative to the data directory (the `@` is stripped
and the data directory prepended); a nested include without `@` is used
verbatim as the file path — it is not data-directory-relative.  (Stated on
backslash-free paths; backslash normalization is the separate claim C8.) -/
theorem C3_amended_nested_include_resolution (datadir rhs : String)
    (hd : strContainsBackslash datadir = false)
    (hr : strContainsBackslash rhs = false) :
    resolvePccPath datadir (pccIncludeArg rhs).2 (pccIncludeArg rhs).1 =
      if strHead rhs = some '@' then datadir ++ strDrop rhs 1 else rhs := by
  by_cases h : strHead rhs = some '@'
  · rw [if_pos h]
    have hdrop : strContainsBackslash (strDrop rhs 1) = false :=
      strContainsBackslash_strDrop rhs 1 hr
    simp [pccIncludeArg, h, resolvePccPath, strContainsBackslash_append, hd,
      hdrop]
  · rw [if_neg h]
    simp [pccIncludeArg, h, resolvePccPath, String.empty_append, hr]

/-- Witness for the amended C3 at concrete inputs: with `@` the data
directory is prepended after stripping the marker, without `@` the path is
taken verbatim. -/
theorem C3_amended_nested_include_resolution_witness :
    resolvePccPath "/data/" (pccIncludeArg "@sub/f.pcc").2
      (pccIncludeArg "@sub/f.pcc").1 = "/data/sub/f.pcc"
    ∧ resolvePccPath "/data/" (pccIncludeArg "sub/f.pcc").2
      (pccIncludeArg "sub/f.pcc").1 = "sub/f.pcc" := by
  constructor
  · exact C3_amended_nested_include_resolution "/data/" "@sub/f.pcc"
      (by decide) (by decide)
  · exact C3_amended_nested_include_resolution "/data/" "sub/f.pcc"
      (by decide) (by decide)

/-- C4: For every non-empty list-file path token: a leading `/` keeps the
token verbatim; a leading `@` or `*` appends the token minus that
character to the toplevel data directory; any other first character
appends the token to the directory of the file being parsed, joined with a
path separator — with the spec's three concrete examples. -/
theorem C4_lst_path_resolution (datadir basedir lstpath : String) :
    (strHead lstpath = some '/' →
      resolveLstPath datadir basedir lstpath = some lstpath)
    ∧ (strHead lstpath = some '@' ∨ strHead lstpath = some '*' →
      resolveLstPath datadir basedir lstpath =
        some (datadir ++ strDrop lstpath 1))
    ∧ (∀ c, strHead lstpath = some c → c ≠ '/' → c ≠ '@' → c ≠ '*' →
      resolveLstPath datadir basedir lstpath =
        some (basedir ++ "/" ++ lstpath))
    ∧ resolveLstPath "/data/" basedir "@sub/f.lst" = some "/data/sub/f.lst"
    ∧ resolveLstPath datadir "/data/src" "f.lst" = some "/data/src/f.lst"
    ∧ resolveLstPath datadir basedir "/x/y" = some "/x/y" := by
  refine ⟨?_, ?_, ?_, rfl, rfl, rfl⟩
  · intro h
    simp [resolveLstPath, h]
  · rintro (h | h) <;> simp [resolveLstPath, h]
  · intro c h h1 h2 h3
    simp [resolveLstPath, h, h1, h2, h3]

/-- Witness for C4 at concrete inputs, one per path-prefix rule. -/
theorem C4_lst_path_resolution_witness :
    resolveLstPath "/d/" "/b" "/x/y" = some "/x/y"
    ∧ resolveLstPath "/d/" "/b" "*a.lst" = some "/d/a.lst"
    ∧ resolveLstPath "/d/" "/b" "a.lst" = some "/b/a.lst" := by
  refine ⟨?_, ?_, ?_⟩
  · exact (C4_lst_path_resolution "/d/" "/b" "/x/y").1 rfl
  · exact (C4_lst_path_resolution "/d/" "/b" "*a.lst").2.1 (Or.inr rfl)
  · exact (C4_lst_path_resolution "/d/" "/b" "a.lst").2.2.1 'a' rfl
      (by decide) (by decide) (by decide)

/-- C6: In a list file, the line `Sword<TAB>ABB:SW` followed by the line
`SW.MOD<TAB>DMG:1d8` produces exactly one record, stored under canonical
id `Sword`, whose attribute sequence is the `ABB` pair followed by
`(DMG,1d8)`: the `.MOD` suffix is stripped and the working identifier
`SW` is replaced by its aliased canonical identifier `Sword`. -/
theorem C6_alias_mod_merge :
    (readLstLines (Pcc.new ⟨"/data/"⟩) (.List (PccList.new "EQUIPMENT"))
        ["Sword\tABB:SW", "SW.MOD\tDMG:1d8"]).1.2 =
      .List ⟨"EQUIPMENT",
        [("Sword", ⟨"Sword", [("ABB", "SW"), ("DMG", "1d8")]⟩)]⟩
    ∧ (readLstLines (Pcc.new ⟨"/data/"⟩) (.List (PccList.new "EQUIPMENT"))
        ["Sword\tABB:SW", "SW.MOD\tDMG:1d8"]).2 = .ok :=
  ⟨rfl, rfl⟩

/-- Counterexample to C9: a zero-length list-file path token does not
produce an error return — the loader panics (the `expect("Empty LST
path")` call), i.e. the process terminates abnormally. -/
theorem C9_counterexample :
    (readLst (Pcc.new ⟨"/data/"⟩) fsNone "EQUIPMENT" "/base" "" "").2 =
      .panicked "Empty LST path" :=
  rfl

/-- C9 as amended: a zero-length list-file path token makes `read_lst`
panic with message `Empty LST path` (abnormal process termination via
`expect`); no error value is returned to the caller and the dictionary is
untouched. -/
theorem C9_amended_empty_path_panics (pcc : Pcc) (fs : FS)
    (pccTag basedir lstopts : String) :
    readLst pcc fs pccTag basedir "" lstopts =
      (pcc, .panicked "Empty LST path") :=
  rfl

/-- C10: reading a list file is not atomic on error — when the dictionary
already holds a record set under the tag and the resolved list file fails
to open, the error return leaves the dictionary with no entry for the tag
at all: the pre-existing record set was removed before the open and is not
reinserted on the error path. -/
theorem C10_read_lst_open_failure_drops_existing (pcc : Pcc) (fs : FS)
    (pccTag basedir lstpath lstopts fpath : String) (lst : PccList)
    (hdat : aget pcc.dict pccTag = some (.List lst))
    (hpath : resolveLstPath pcc.config.datadir basedir lstpath = some fpath)
    (hopen : fs fpath = none) :
    readLst pcc fs pccTag basedir lstpath lstopts =
      ({ pcc with dict := aerase pcc.dict pccTag }, .err (.notFound fpath))
    ∧ aget (readLst pcc fs pccTag basedir lstpath lstopts).1.dict pccTag =
      none := by
  have hres : readLst pcc fs pccTag basedir lstpath lstopts =
      ({ pcc with dict := aerase pcc.dict pccTag }, .err (.notFound fpath)) := by
    simp [readLst, hpath, hdat, hopen]
  exact ⟨hres, by rw [hres]; exact aget_aerase_self pcc.dict pccTag⟩

/-- Witness for C10 at a concrete input: a dictionary holding a one-record
set under `EQUIPMENT` loses that entry entirely when the list file fails
to open. -/
theorem C10_read_lst_open_failure_drops_existing_witness :
    readLst ⟨⟨"/d/"⟩,
        [("EQUIPMENT", .List ⟨"EQUIPMENT", [("Sword", ⟨"Sword", []⟩)]⟩)],
        newPccSchema, []⟩ fsNone "EQUIPMENT" "/b" "x.lst" "" =
      (⟨⟨"/d/"⟩, [], newPccSchema, []⟩, .err (.notFound "/b/x.lst"))
    ∧ aget (readLst ⟨⟨"/d/"⟩,
        [("EQUIPMENT", .List ⟨"EQUIPMENT", [("Sword", ⟨"Sword", []⟩)]⟩)],
        newPccSchema, []⟩ fsNone "EQUIPMENT" "/b" "x.lst" "").1.dict
      "EQUIPMENT" = none := by
  exact C10_read_lst_open_failure_drops_existing _ fsNone "EQUIPMENT" "/b"
    "x.lst" "" "/b/x.lst" ⟨"EQUIPMENT", [("Sword", ⟨"Sword", []⟩)]⟩
    rfl rfl rfl

/-- C7: For a directive whose schema kind is `Bool`, `Date`, `Number` or
`Text`, the first occurrence creates a dictionary entry holding the raw
value, and a repeated occurrence of the same name appends a newline and
the new value to the existing text, so values concatenate
newline-separated in encounter order; parsing a `Text` directive twice
with values `A` then `B` yields dictionary value `A\nB`. -/
theorem C7_text_directives_concatenate (fuel : Nat) (pcc : Pcc) (fs : FS)
    (basedir line lhs rhs : String) (tag : PccTag)
    (hsplit : splitOnce line ':' = some (lhs, rhs))
    (hbang : strHead lhs ≠ some '!')
    (htag : aget pcc.pccSchema lhs = some tag)
    (hkind : tag = .Bool ∨ tag = .Date ∨ tag = .Number ∨ tag = .Text) :
    (aget pcc.dict lhs = none →
      readPccLine fuel pcc fs basedir line =
        ({ pcc with dict := ains pcc.dict lhs (.Text rhs) }, .ok))
    ∧ (∀ v, aget pcc.dict lhs = some (.Text v) →
      readPccLine fuel pcc fs basedir line =
        ({ pcc with dict := ains pcc.dict lhs (.Text (v ++ "\n" ++ rhs)) },
          .ok))
    ∧ aget ((readPccLine 1
        ((readPccLine 1 (Pcc.new ⟨"/d/"⟩) fsNone "" "CAMPAIGN:A").1)
        fsNone "" "CAMPAIGN:B").1).dict "CAMPAIGN" =
      some (.Text "A\nB") := by
  refine ⟨?_, ?_, rfl⟩
  · intro hdict
    rcases hkind with h | h | h | h <;> subst h <;>
      simp [readPccLine, readPccLineF, hsplit, hbang, htag, hdict]
  · intro v hdict
    rcases hkind with h | h | h | h <;> subst h <;>
      simp [readPccLine, readPccLineF, hsplit, hbang, htag, hdict]

/-- Witness for C7 at concrete inputs: a first `GENRE` directive creates
the entry, a second one appends newline-separated. -/
theorem C7_text_directives_concatenate_witness :
    readPccLine 1 (Pcc.new ⟨"/d/"⟩) fsNone "" "GENRE:A" =
      ({ Pcc.new ⟨"/d/"⟩ with dict := ains [] "GENRE" (.Text "A") }, .ok)
    ∧ readPccLine 1 ⟨⟨"/d/"⟩, [("GENRE", .Text "A")], newPccSchema, []⟩
        fsNone "" "GENRE:B" =
      (⟨⟨"/d/"⟩, [("GENRE", .Text "A\nB")], newPccSchema, []⟩, .ok) := by
  constructor
  · exact (C7_text_directives_concatenate 1 (Pcc.new ⟨"/d/"⟩) fsNone ""
      "GENRE:A" "GENRE" "A" .Text rfl (by decide) rfl
      (by right; right; right; rfl)).1 rfl
  · exact (C7_text_directives_concatenate 1
      ⟨⟨"/d/"⟩, [("GENRE", .Text "A")], newPccSchema, []⟩ fsNone ""
      "GENRE:B" "GENRE" "B" .Text rfl (by decide) rfl
      (by right; right; right; rfl)).2.1 "A" rfl

/-- Counterexample to C8: list-file path tokens are not backslash
normalized.  With data directory `/data/` and a filesystem holding only
the normalized path `/data/sub/f.lst`, the token `@sub\f.lst` resolves to
`/data/sub\f.lst` — backslash intact — and the open fails, while C8
predicts the same resolution as `@sub/f.lst`, which succeeds. -/
theorem C8_counterexample :
    resolveLstPath "/data/" "/base" "@sub\\f.lst" = some "/data/sub\\f.lst"
    ∧ (readLst (Pcc.new ⟨"/data/"⟩)
        (fun p => if p = "/data/sub/f.lst" then some [] else none)
        "EQUIPMENT" "/base" "@sub\\f.lst" "").2 =
      .err (.notFound "/data/sub\\f.lst")
    ∧ (readLst (Pcc.new ⟨"/data/"⟩)
        (fun p => if p = "/data/sub/f.lst" then some [] else none)
        "EQUIPMENT" "/base" "@sub/f.lst" "").2 = .ok :=
  ⟨rfl, rfl, rfl⟩

/-- C8 as amended: only descriptor-file paths are backslash-normalized —
the path built by `Pcc::read` never contains a backslash (the
normalization is applied to the joined path) — while list-file path
tokens are resolved with backslashes preserved verbatim. -/
theorem C8_amended_backslash_only_for_descriptors :
    (∀ (datadir p : String) (rel : Bool),
      '\\' ∉ (resolvePccPath datadir p rel).data)
    ∧ resolveLstPath "/data/" "/base" "@sub\\f.lst" = some "/data/sub\\f.lst"
    ∧ '\\' ∈ ("/data/sub\\f.lst" : String).data := by
  refine ⟨?_, rfl, by decide⟩
  intro datadir p rel
  by_cases h : strContainsBackslash ((if rel then datadir else "") ++ p) = true
  · simp only [resolvePccPath, h, if_true]
    intro hmem
    rw [replaceBackslashes] at hmem
    simp only [List.mem_map] at hmem
    obtain ⟨c, _, hc⟩ := hmem
    by_cases hcb : c = '\\'
    · rw [if_pos hcb] at hc
      exact absurd hc (by decide)
    · rw [if_neg hcb] at hc
      exact hcb hc
  · rw [Bool.not_eq_true] at h
    simp only [resolvePccPath, h, Bool.false_eq_true, if_false]
    have hmem := h
    simp only [strContainsBackslash, decide_eq_false_iff_not] at hmem
    exact hmem

/-- Witness for the amended C8 at a concrete input: a descriptor path
containing a backslash is normalized by `Pcc::read`'s path building. -/
theorem C8_amended_backslash_only_for_descriptors_witness :
    '\\' ∉ (resolvePccPath "/data/" "sub\\f.pcc" true).data
    ∧ resolvePccPath "/data/" "sub\\f.pcc" true = "/data/sub/f.pcc" :=
  ⟨C8_amended_backslash_only_for_descriptors.1 "/data/" "sub\\f.pcc" true,
    rfl⟩

theorem readPccLinesF_cons
    (readF : Pcc → FS → String → Bool → Pcc × Status) (pcc : Pcc) (fs : FS)
    (basedir line : String) (rest : List String) :
    readPccLinesF readF pcc fs basedir (line :: rest) =
      if strHead line = none ∨ strHead line = some '#' then
        readPccLinesF readF pcc fs basedir rest
      else
        match readPccLineF readF pcc fs basedir line with
        | (pcc', .ok) => readPccLinesF readF pcc' fs basedir rest
        | (pcc', .err e) => (pcc', .err e)
        | (pcc', .panicked m) => (pcc', .panicked m) :=
  rfl

theorem readPccLinesF_ok_append
    (readF : Pcc → FS → String → Bool → Pcc × Status) (fs : FS)
    (basedir : String) :
    ∀ (lines1 : List String) (pcc pcc1 : Pcc),
      readPccLinesF readF pcc fs basedir lines1 = (pcc1, .ok) →
      ∀ (suffix : List String),
        readPccLinesF readF pcc fs basedir (lines1 ++ suffix) =
          readPccLinesF readF pcc1 fs basedir suffix := by
  intro lines1
  induction lines1 with
  | nil =>
    intro pcc pcc1 h suffix
    have : pcc = pcc1 := congrArg Prod.fst h
    rw [List.nil_append, this]
  | cons l rest ih =>
    intro pcc pcc1 h suffix
    rw [List.cons_append, readPccLinesF_cons]
    rw [readPccLinesF_cons] at h
    by_cases hskip : strHead l = none ∨ strHead l = some '#'
    · rw [if_pos hskip] at h ⊢
      exact ih pcc pcc1 h suffix
    · rw [if_neg hskip] at h ⊢
      rcases hr : readPccLineF readF pcc fs basedir l with ⟨pcc', st⟩
      rw [hr] at h
      cases st with
      | ok => exact ih pcc' pcc1 h suffix
      | err e => exact absurd (congrArg Prod.snd h) (by simp)
      | panicked m => exact absurd (congrArg Prod.snd h) (by simp)

theorem read_succ (n : Nat) (pcc : Pcc) (fs : FS) (pccpath : String)
    (rel : Bool) :
    read (n + 1) pcc fs pccpath rel =
      match dirFromPath (resolvePccPath pcc.config.datadir pccpath rel) with
      | none => (pcc, .panicked "dir_from_path returned None")
      | some basedir =>
        match fs (resolvePccPath pcc.config.datadir pccpath rel) with
        | none =>
          (pcc, .err (.notFound (resolvePccPath pcc.config.datadir pccpath rel)))
        | some lines => readPccLinesF (read n) pcc fs basedir lines :=
  rfl

/-- C5: A descriptor line without `:` fails with the malformed-line error,
a directive name absent from the schema fails with the unknown-directive
error (`MalformedLine` and `UnknownDirective` are
`Error::new(ErrorKind::Other, ..)` with messages `PCC invalid line:colon`
and `PCC invalid key <name>`); the first failing line aborts the line
loop, its error is returned unchanged and nothing after the failing line
is processed (the result does not depend on the remaining lines, so no
dictionary entries arise from them); an error of a nested descriptor read
is returned unchanged by the dispatching line; and an error of the line
loop of a nested file is returned unchanged by `read`. -/
theorem C5_first_error_aborts :
    (∀ (fuel : Nat) (pcc : Pcc) (fs : FS) (basedir line : String),
      splitOnce line ':' = none →
      readPccLine fuel pcc fs basedir line =
        (pcc, .err (.other "PCC invalid line:colon")))
    ∧ (∀ (fuel : Nat) (pcc : Pcc) (fs : FS) (basedir line lhs rhs : String),
      splitOnce line ':' = some (lhs, rhs) →
      strHead lhs ≠ some '!' →
      aget pcc.pccSchema lhs = none →
      readPccLine fuel pcc fs basedir line =
        (pcc, .err (.other ("PCC invalid key " ++ lhs))))
    ∧ (∀ (fuel : Nat) (pcc pcc1 pcc2 : Pcc) (fs : FS) (basedir : String)
        (lines1 : List String) (line : String) (lines2 : List String)
        (e : RErr),
      readPccLines fuel pcc fs basedir lines1 = (pcc1, .ok) →
      ¬(strHead line = none ∨ strHead line = some '#') →
      readPccLine fuel pcc1 fs basedir line = (pcc2, .err e) →
      readPccLines fuel pcc fs basedir (lines1 ++ line :: lines2) =
        (pcc2, .err e))
    ∧ (∀ (fuel : Nat) (pcc pcc' : Pcc) (fs : FS)
        (basedir line lhs rhs : String) (e : RErr),
      splitOnce line ':' = some (lhs, rhs) →
      strHead lhs ≠ some '!' →
      aget pcc.pccSchema lhs = some .PccFile →
      read fuel pcc fs (pccIncludeArg rhs).2 (pccIncludeArg rhs).1 =
        (pcc', .err e) →
      readPccLine fuel pcc fs basedir line = (pcc', .err e))
    ∧ (∀ (n : Nat) (pcc pcc' : Pcc) (fs : FS) (pccpath basedir : String)
        (rel : Bool) (lines : List String) (e : RErr),
      dirFromPath (resolvePccPath pcc.config.datadir pccpath rel) =
        some basedir →
      fs (resolvePccPath pcc.config.datadir pccpath rel) = some lines →
      readPccLines n pcc fs basedir lines = (pcc', .err e) →
      read (n + 1) pcc fs pccpath rel = (pcc', .err e)) := by
  refine ⟨?_, ?_, ?_, ?_, ?_⟩
  · intro fuel pcc fs basedir line h
    simp [readPccLine, readPccLineF, h]
  · intro fuel pcc fs basedir line lhs rhs h1 h2 h3
    simp [readPccLine, readPccLineF, h1, h2, h3]
  · intro fuel pcc pcc1 pcc2 fs basedir lines1 line lines2 e h1 hskip h2
    have happ := readPccLinesF_ok_append (read fuel) fs basedir lines1 pcc
      pcc1 h1 (line :: lines2)
    show readPccLinesF (read fuel) pcc fs basedir (lines1 ++ line :: lines2) =
      (pcc2, .err e)
    rw [happ, readPccLinesF_cons, if_neg hskip]
    rw [show readPccLineF (read fuel) pcc1 fs basedir line = (pcc2, .err e)
      from h2]
  · intro fuel pcc pcc' fs basedir line lhs rhs e h1 h2 h3 h4
    show readPccLineF (read fuel) pcc fs basedir line = (pcc', .err e)
    simp [readPccLineF, h1, h2, h3]
    exact h4
  · intro n pcc pcc' fs pccpath basedir rel lines e hdir hfs h3
    rw [read_succ]
    simp only [hdir, hfs]
    exact h3

/-- Witness for C5 at concrete inputs: the malformed line
`NOTAG_NO_COLON`, the unknown directive `BADKEY:x`, an abort in the middle
of a three-line descriptor with the state as of the failing line and the
trailing line unprocessed, a failing nested include `PCC:@x.pcc`, and a
one-line descriptor file whose malformed line aborts `read`. -/
theorem C5_first_error_aborts_witness :
    readPccLine 1 (Pcc.new ⟨"/d/"⟩) fsNone "" "NOTAG_NO_COLON" =
      (Pcc.new ⟨"/d/"⟩, .err (.other "PCC invalid line:colon"))
    ∧ readPccLine 1 (Pcc.new ⟨"/d/"⟩) fsNone "" "BADKEY:x" =
      (Pcc.new ⟨"/d/"⟩, .err (.other "PCC invalid key BADKEY"))
    ∧ readPccLines 1 (Pcc.new ⟨"/d/"⟩) fsNone ""
        (["CAMPAIGN:A"] ++ "NOTAG_NO_COLON" :: ["CAMPAIGN:B"]) =
      (⟨⟨"/d/"⟩, [("CAMPAIGN", .Text "A")], newPccSchema, []⟩,
        .err (.other "PCC invalid line:colon"))
    ∧ readPccLine 1 (Pcc.new ⟨"/d/"⟩) fsNone "" "PCC:@x.pcc" =
      (Pcc.new ⟨"/d/"⟩, .err (.notFound "/d/x.pcc"))
    ∧ read 1 (Pcc.new ⟨"/d/"⟩)
        (fun p => if p = "f.pcc" then some ["NOTAG_NO_COLON"] else none)
        "f.pcc" false =
      (Pcc.new ⟨"/d/"⟩, .err (.other "PCC invalid line:colon")) := by
  refine ⟨?_, ?_, ?_, ?_, ?_⟩
  · exact C5_first_error_aborts.1 1 (Pcc.new ⟨"/d/"⟩) fsNone ""
      "NOTAG_NO_COLON" rfl
  · exact C5_first_error_aborts.2.1 1 (Pcc.new ⟨"/d/"⟩) fsNone "" "BADKEY:x"
      "BADKEY" "x" rfl (by decide) rfl
  · exact C5_first_error_aborts.2.2.1 1 (Pcc.new ⟨"/d/"⟩)
      ⟨⟨"/d/"⟩, [("CAMPAIGN", .Text "A")], newPccSchema, []⟩
      ⟨⟨"/d/"⟩, [("CAMPAIGN", .Text "A")], newPccSchema, []⟩ fsNone ""
      ["CAMPAIGN:A"] "NOTAG_NO_COLON" ["CAMPAIGN:B"]
      (.other "PCC invalid line:colon") rfl (by decide) rfl
  · exact C5_first_error_aborts.2.2.2.1 1 (Pcc.new ⟨"/d/"⟩)
      (Pcc.new ⟨"/d/"⟩) fsNone "" "PCC:@x.pcc" "PCC" "@x.pcc"
      (.notFound "/d/x.pcc") rfl (by decide) rfl rfl
  · exact C5_first_error_aborts.2.2.2.2 0 (Pcc.new ⟨"/d/"⟩)
      (Pcc.new ⟨"/d/"⟩)
      (fun p => if p = "f.pcc" then some ["NOTAG_NO_COLON"] else none)
      "f.pcc" "" false ["NOTAG_NO_COLON"]
      (.other "PCC invalid line:colon") rfl rfl rfl

end Pcgtools
